import Mathlib

/-!
Verification development for the mosaico server (Rust sources under
`mosaicod/src`).  Each section embeds the data model and operations of one
part of the code as executable Lean definitions, translated directly from
the Rust source; the theorems at the end of the file settle the behavioural
claims about the program.

Strings from the Rust side are modelled as `List Char` where character-level
reasoning is needed (name sanitization, prefix checks) and as `String` where
the code only assembles SQL text.
-/

namespace Mosaico

/-! ## Resource locator names (`types/resources.rs`)

`sanitize_name` trims whitespace from both ends and strips a single
leading `/` (`name.trim()` followed by `trimmed.strip_prefix('/')`).
`Resource::is_sub_resource` is a plain string-prefix test
(`self.name().starts_with(parent.name())`).
-/

/-- Whitespace predicate used by Rust's `str::trim` (modelled on the
characters relevant to resource names). -/
def isWsChar (c : Char) : Bool := c.isWhitespace

/-- Drop leading whitespace, as the left half of `str::trim`. -/
def trimLeft (l : List Char) : List Char := l.dropWhile isWsChar

/-- Drop trailing whitespace, as the right half of `str::trim`. -/
def trimRight (l : List Char) : List Char := (l.reverse.dropWhile isWsChar).reverse

/-- Rust `str::trim`: whitespace removed from both ends. -/
def trimChars (l : List Char) : List Char := trimRight (trimLeft l)

/-- Rust `trimmed.strip_prefix('/')` with fallback to the input:
`if let Some(stripped) = trimmed.strip_prefix('/') { stripped } else { trimmed }`. -/
def stripLeadingSlash (l : List Char) : List Char :=
  match l with
  | '/' :: rest => rest
  | _ => l

/-- `sanitize_name` from `types/resources.rs`: trim, then strip one leading `/`. -/
def sanitize_name (l : List Char) : List Char := stripLeadingSlash (trimChars l)

/-- `Resource::is_sub_resource` from `types/resources.rs`:
`self.name().starts_with(parent.name())`. -/
def is_sub_resource (child parent : List Char) : Bool := parent.isPrefixOf child

/-- Errors surfaced by the facades (subset used by the embedded guards),
from `repo/facades/facade_error.rs`. -/
inductive FacadeError
  | sequenceLocked
  | topicLocked
  | topicUnlocked
  | unauthorized
  deriving DecidableEq, Repr

/-- The guard sequence of `FacadeTopic::create` (`facades/facade_topic.rs`):
after looking up the parent sequence, refuse with `SequenceLocked` when the
parent is locked, then refuse with `Unauthorized` when
`!self.locator.is_sub_resource(&sloc)`.  Both locators hold sanitized
names (`TopicResourceLocator::from` / `SequenceResourceLocator::from`
apply `sanitize_name`). -/
def topic_create_guard (topicName seqName : List Char) (seqLocked : Bool) :
    Except FacadeError Unit :=
  if seqLocked then .error .sequenceLocked
  else if !(is_sub_resource (sanitize_name topicName) (sanitize_name seqName)) then
    .error .unauthorized
  else .ok ()

/-! ## Query DSL (`query/filter.rs`)

`Value` is the dynamic operand type; the `IsSupportedOp` trait records which
operator families each operand type supports (all default to `false`).
Rust floats are modelled as `ℚ` (only ordering and equality matter here).
-/

inductive Value
  | integer (v : Int)
  | float (v : ℚ)
  | text (v : String)
  | boolean (v : Bool)
  deriving DecidableEq, Repr

/-- `types::Timestamp`, a distinct wrapper around an `i64`, converted into
`Value::Integer` by `From<Timestamp> for Value`. -/
structure Timestamp where
  val : Int
  deriving DecidableEq, Repr

/-- The `IsSupportedOp` trait of `query/filter.rs`; every method defaults
to `false`, implementors override the ones they support. -/
class IsSupportedOp (T : Type) where
  support_eq : T → Bool := fun _ => false
  support_ordering : T → Bool := fun _ => false
  support_in : T → Bool := fun _ => false
  support_match : T → Bool := fun _ => false

export IsSupportedOp (support_eq support_ordering support_in support_match)

/-- `impl IsSupportedOp for Value`: `eq` always; `ordering` for
`Integer`/`Float` only; `in` only when the operand is `Boolean`
(`matches!(self, Self::Boolean(_))`); `match` only for `Text`. -/
instance instSupportedValue : IsSupportedOp Value where
  support_eq _ := true
  support_ordering v :=
    match v with
    | .text _ => false
    | .boolean _ => false
    | .integer _ => true
    | .float _ => true
  support_in v :=
    match v with
    | .boolean _ => true
    | _ => false
  support_match v :=
    match v with
    | .text _ => true
    | _ => false

/-- `impl IsSupportedOp for bool`: only `support_eq` overridden. -/
instance instSupportedBool : IsSupportedOp Bool where
  support_eq _ := true

/-- `impl IsSupportedOp for i64`: eq, ordering and in. -/
instance instSupportedInt : IsSupportedOp Int where
  support_eq _ := true
  support_ordering _ := true
  support_in _ := true

/-- `impl IsSupportedOp for types::Timestamp`: eq and ordering only
(no `support_in`, no `support_match`). -/
instance instSupportedTimestamp : IsSupportedOp Timestamp where
  support_eq _ := true
  support_ordering _ := true

/-- `impl IsSupportedOp for Text` (= `String`): eq, in and match. -/
instance instSupportedText : IsSupportedOp String where
  support_eq _ := true
  support_in _ := true
  support_match _ := true

/-- `query::Range`, a two-value range `[min, max]`. -/
structure Range (T : Type) where
  min : T
  max : T
  deriving DecidableEq, Repr

/-- The filter operator set (`query::Op`). -/
inductive Op (T : Type)
  | eq (v : T)
  | neq (v : T)
  | leq (v : T)
  | geq (v : T)
  | lt (v : T)
  | gt (v : T)
  | ex
  | nex
  | between (range : Range T)
  | inList (items : List T)
  | matchOp (v : T)
  deriving DecidableEq, Repr

/-- `Op::is_supported_op`.  The `In` arm indexes `items[0]`, which panics in
Rust when the list is empty: that panic is modelled as `none`. -/
def Op.is_supported_op {T : Type} [IsSupportedOp T] : Op T → Option Bool
  | .eq v => some (support_eq v)
  | .neq v => some (support_eq v)
  | .leq v => some (support_ordering v)
  | .geq v => some (support_ordering v)
  | .lt v => some (support_ordering v)
  | .gt v => some (support_ordering v)
  | .ex => some true
  | .nex => some true
  | .between range => some (support_ordering range.min)
  | .inList items =>
    match items with
    | [] => none
    | v :: _ => some (support_in v)
  | .matchOp v => some (support_match v)

/-- Conversions `Into<Value>` used at the compile sites. -/
def intToValue (v : Int) : Value := .integer v

def timestampToValue (t : Timestamp) : Value := .integer t.val

def textToValue (s : String) : Value := .text s

/-- `query::OpError` (subset relevant to compilation). -/
inductive OpError
  | wrongType
  | unsupportedOperation
  | emptyRange
  deriving DecidableEq, Repr

/-- `query::Error` (subset reachable from clause compilation). -/
inductive QError
  | opError (field : String) (err : OpError)
  | badField (field : String)
  deriving DecidableEq, Repr

/-- `query::Error::unsupported_op`. -/
def QError.unsupported_op (field : String) : QError :=
  .opError field .unsupportedOperation

/-- `query::OntologyField`: the raw dotted value plus the byte offset of the
first `.` (the length of the ontology tag). -/
structure OntologyField where
  value : String
  deriving DecidableEq, Repr

/-- The ontology filter, a map from dotted fields to operators.  The Rust
type is a `HashMap`; it is modelled as an association list, fixing one
iteration order (the Rust iteration order is unspecified). -/
def OntologyFilter : Type := List (OntologyField × Op Value)

/-! ## Clause compilation (`query/builder.rs`, `pg_queries/compilers.rs`)

`CompiledClause` and `ClausesCompiler` mirror `query/builder.rs`.  A clause
compiler (the Rust `CompileClause` trait) is modelled as a function from its
internal state (the positional-placeholder counter) and the field/operator
pair to `Option (Except QError (CompiledClause × state))`; the outer `none`
stands for a Rust panic inside `compile_clause` (the `items[0]` of
`is_supported_op` on an empty `$in` list).
-/

structure CompiledClause where
  clause : String
  values : List Value
  deriving DecidableEq, Repr

/-- `CompiledClause::empty`: the `"()"` marker clause. -/
def CompiledClause.emptyClause : CompiledClause := ⟨"()", []⟩

structure CompilerResult where
  clauses : List String
  values : List Value
  deriving DecidableEq, Repr

/-- `CompilerResult::is_unfiltered`. -/
def CompilerResult.is_unfiltered (r : CompilerResult) : Bool := r.clauses.isEmpty

/-- The `ClausesCompiler` accumulator: the result built so far and the first
error, which short-circuits all later `expr` calls. -/
structure ClausesCompiler where
  result : CompilerResult
  error : Option QError

def ClausesCompiler.new : ClausesCompiler := ⟨⟨[], []⟩, none⟩

/-- `ClausesCompiler::expr` for a mapper with state `σ`. -/
def ClausesCompiler.expr {σ V : Type}
    (compile : σ → String → Op V → Option (Except QError (CompiledClause × σ)))
    (st : ClausesCompiler × σ) (field : String) (op : Op V) :
    Option (ClausesCompiler × σ) :=
  let (cc, ms) := st
  if cc.error.isSome then some st
  else
    match compile ms field op with
    | none => none
    | some (.error e) => some ({ cc with error := some e }, ms)
    | some (.ok (c, ms')) =>
      some ({ cc with
              result := ⟨cc.result.clauses ++ [c.clause],
                         cc.result.values ++ c.values⟩ }, ms')

/-- `ClausesCompiler::filter`: one `expr` per ontology entry, the field
rendered by the formatter's `ontology_column_fmt`. -/
def ClausesCompiler.filterFold {σ : Type}
    (columnFmt : String → String)
    (compile : σ → String → Op Value → Option (Except QError (CompiledClause × σ)))
    (st : ClausesCompiler × σ) (entries : OntologyFilter) :
    Option (ClausesCompiler × σ) :=
  entries.foldlM (fun acc e => ClausesCompiler.expr compile acc (columnFmt e.1.value) e.2) st

/-- `ClausesCompiler::compile`: the stored error, if any, otherwise the result. -/
def ClausesCompiler.compile (cc : ClausesCompiler) : Except QError CompilerResult :=
  match cc.error with
  | some e => .error e
  | none => .ok cc.result

/-- `consume_placeholder`: render `$counter` and advance the counter. -/
def consumePlaceholder (pc : Nat) : String × Nat :=
  ("$" ++ toString pc, pc + 1)

/-- `SqlQueryCompiler::compile_clause` (`pg_queries/compilers.rs`): guard on
`is_supported_op`, then one SQL fragment per operator.  State: the
placeholder counter. -/
def SqlQueryCompiler.compile_clause {V : Type} [IsSupportedOp V] (toValue : V → Value)
    (pc : Nat) (field : String) (op : Op V) :
    Option (Except QError (CompiledClause × Nat)) :=
  match op.is_supported_op with
  | none => none
  | some false => some (.error (QError.unsupported_op field))
  | some true =>
    some (match op with
      | .eq v =>
        let (p, pc') := consumePlaceholder pc
        .ok (⟨field ++ " = " ++ p, [toValue v]⟩, pc')
      | .neq v =>
        let (p, pc') := consumePlaceholder pc
        .ok (⟨field ++ " != " ++ p, [toValue v]⟩, pc')
      | .leq v =>
        let (p, pc') := consumePlaceholder pc
        .ok (⟨field ++ " <= " ++ p, [toValue v]⟩, pc')
      | .geq v =>
        let (p, pc') := consumePlaceholder pc
        .ok (⟨field ++ " >= " ++ p, [toValue v]⟩, pc')
      | .lt v =>
        let (p, pc') := consumePlaceholder pc
        .ok (⟨field ++ " < " ++ p, [toValue v]⟩, pc')
      | .gt v =>
        let (p, pc') := consumePlaceholder pc
        .ok (⟨field ++ " > " ++ p, [toValue v]⟩, pc')
      | .ex => .ok (⟨"(" ++ field ++ ") IS NOT NULL", []⟩, pc)
      | .nex => .ok (⟨"(" ++ field ++ ") IS NULL", []⟩, pc)
      | .between range =>
        let (pmin, pc1) := consumePlaceholder pc
        let (pmax, pc2) := consumePlaceholder pc1
        .ok (⟨"(" ++ field ++ " >= " ++ pmin ++ ") AND (" ++ field ++ " <= " ++ pmax ++ ")",
              [toValue range.min, toValue range.max]⟩, pc2)
      | .inList items =>
        if items.isEmpty then .ok (CompiledClause.emptyClause, pc)
        else
          let vals := items.map toValue
          let (phs, pc') := vals.foldl
            (fun (acc : List String × Nat) _ =>
              let (p, n) := consumePlaceholder acc.2
              (acc.1 ++ [p], n)) ([], pc)
          .ok (⟨field ++ " IN (" ++ String.intercalate ", " phs ++ ")", vals⟩, pc')
      | .matchOp v =>
        match toValue v with
        | .text t =>
          let (p, pc') := consumePlaceholder pc
          .ok (⟨field ++ " LIKE " ++ p, [.text ("%" ++ t ++ "%")]⟩, pc')
        | _ => .error (QError.unsupported_op field))

/-- `internal::JsonQueryCompiler::fmt_value`: wrap the JSON accessor in a
numeric/boolean cast depending on the operand value. -/
def JsonQueryCompiler.fmt_value (field : String) (v : Value) : String :=
  match v with
  | .integer _ => "(" ++ field ++ ")::numeric"
  | .float _ => "(" ++ field ++ ")::numeric"
  | .text _ => field
  | .boolean _ => "(" ++ field ++ ")::boolean"

/-- `internal::JsonQueryCompiler`'s `ontology_column_fmt`: a JSON-pointer
accessor `field #>> '{a,b,c}'` built from the dotted subfield. -/
def JsonQueryCompiler.ontology_column_fmt (field subfield : String) : String :=
  let inner := "\x7b" ++ String.intercalate "," (subfield.splitOn ".") ++ "\x7d"
  field ++ " #>> '" ++ inner ++ "'"

/-- `internal::JsonQueryCompiler::compile_clause`: same guard, JSON-cast
accessors, `In` and `Match` unsupported.  State: the placeholder counter
(V is always `query::Value` at its call sites). -/
def JsonQueryCompiler.compile_clause
    (pc : Nat) (field : String) (op : Op Value) :
    Option (Except QError (CompiledClause × Nat)) :=
  match op.is_supported_op with
  | none => none
  | some false => some (.error (QError.unsupported_op field))
  | some true =>
    some (match op with
      | .eq v =>
        let (p, pc') := consumePlaceholder pc
        .ok (⟨JsonQueryCompiler.fmt_value field v ++ " = " ++ p, [v]⟩, pc')
      | .neq v =>
        let (p, pc') := consumePlaceholder pc
        .ok (⟨JsonQueryCompiler.fmt_value field v ++ " != " ++ p, [v]⟩, pc')
      | .leq v =>
        let (p, pc') := consumePlaceholder pc
        .ok (⟨JsonQueryCompiler.fmt_value field v ++ " <= " ++ p, [v]⟩, pc')
      | .geq v =>
        let (p, pc') := consumePlaceholder pc
        .ok (⟨JsonQueryCompiler.fmt_value field v ++ " >= " ++ p, [v]⟩, pc')
      | .lt v =>
        let (p, pc') := consumePlaceholder pc
        .ok (⟨JsonQueryCompiler.fmt_value field v ++ " < " ++ p, [v]⟩, pc')
      | .gt v =>
        let (p, pc') := consumePlaceholder pc
        .ok (⟨JsonQueryCompiler.fmt_value field v ++ " > " ++ p, [v]⟩, pc')
      | .ex => .ok (⟨"(" ++ field ++ ") IS NOT NULL", []⟩, pc)
      | .nex => .ok (⟨"(" ++ field ++ ") IS NULL", []⟩, pc)
      | .between range =>
        let (pmin, pc1) := consumePlaceholder pc
        let (pmax, pc2) := consumePlaceholder pc1
        let f := JsonQueryCompiler.fmt_value field range.min
        .ok (⟨"(" ++ f ++ " >= " ++ pmin ++ ") AND (" ++ f ++ " <= " ++ pmax ++ ")",
              [range.min, range.max]⟩, pc2)
      | .inList _ => .error (QError.unsupported_op field)
      | .matchOp _ => .error (QError.unsupported_op field))

/-! ## Chunk-pruning query builder (`pg_queries/builders.rs`) -/

/-- `column_table_name_by_value`: the reconstructed dotted column name. -/
def column_table_name_by_value (_v : Value) : String :=
  "(__column__.ontology_tag || '.' || __column__.column_name)"

/-- `build_clause`'s `SELECT` head: numeric-stats join for
`Integer`/`Float`/`Boolean` operands, literal-stats join for `Text`. -/
def buildClauseSelect (v : Value) : String :=
  match v with
  | .integer _ | .float _ | .boolean _ =>
    "\n            SELECT chunk_id FROM chunk_t \n            JOIN column_chunk_numeric_t __stats__ USING(chunk_id)\n            JOIN column_t __column__ USING(column_id)\n            "
  | .text _ =>
    "\n            SELECT chunk_id FROM chunk_t \n            JOIN column_chunk_literal_t __stats__ USING(chunk_id) \n            JOIN column_t __column__ USING(column_id)\n            "

/-- `build_clause(where_clauses, v)`. -/
def build_clause (whereClauses : String) (v : Value) : String :=
  buildClauseSelect v ++ " WHERE " ++ whereClauses

/-- `build_query(joined_clauses)`: the `WITH __selected_chunks__` wrapper.
With no clauses the joined string is empty and the result is the malformed
`WITH __selected_chunks__ AS()`. -/
def build_query (joinedClauses : String) : String :=
  "WITH __selected_chunks__ AS(" ++ joinedClauses ++
    ") SELECT chunk_t.* FROM chunk_t JOIN __selected_chunks__ USING (chunk_id)"

/-- `ChunkQueryBuilder::compile_clause`: the per-operator chunk-stats
constraint.  `Eq` emits `min_value >= $p AND max_value <= $p`; `Neq`, `Ex`,
`Nex`, `In` and `Match` are unsupported for pruning. -/
def ChunkQueryBuilder.compile_clause
    (pc : Nat) (field : String) (op : Op Value) :
    Option (Except QError (CompiledClause × Nat)) :=
  some (match op with
    | .eq v =>
      let (p, pc') := consumePlaceholder pc
      let columnName := column_table_name_by_value v
      let clause := columnName ++ " = " ++ field ++
        " AND __stats__.min_value >= " ++ p ++ " AND __stats__.max_value <= " ++ p
      .ok (⟨build_clause clause v, [v]⟩, pc')
    | .neq _ => .error (QError.unsupported_op field)
    | .leq v =>
      let (p, pc') := consumePlaceholder pc
      let columnName := column_table_name_by_value v
      let clause := columnName ++ " = " ++ field ++ " AND __stats__.min_value <= " ++ p
      .ok (⟨build_clause clause v, [v]⟩, pc')
    | .geq v =>
      let (p, pc') := consumePlaceholder pc
      let columnName := column_table_name_by_value v
      let clause := columnName ++ " = " ++ field ++ " AND __stats__.max_value >= " ++ p
      .ok (⟨build_clause clause v, [v]⟩, pc')
    | .lt v =>
      let (p, pc') := consumePlaceholder pc
      let columnName := column_table_name_by_value v
      let clause := columnName ++ " = " ++ field ++ " AND __stats__.min_value < " ++ p
      .ok (⟨build_clause clause v, [v]⟩, pc')
    | .gt v =>
      let (p, pc') := consumePlaceholder pc
      let columnName := column_table_name_by_value v
      let clause := columnName ++ " = " ++ field ++ " AND __stats__.max_value > " ++ p
      .ok (⟨build_clause clause v, [v]⟩, pc')
    | .ex => .error (QError.unsupported_op field)
    | .nex => .error (QError.unsupported_op field)
    | .between range =>
      let (pmin, pc1) := consumePlaceholder pc
      let (pmax, pc2) := consumePlaceholder pc1
      let columnName := column_table_name_by_value range.min
      let clause := columnName ++ " = " ++ field ++
        " AND __stats__.min_value <= " ++ pmax ++ " AND __stats__.max_value >= " ++ pmin
      .ok (⟨build_clause clause range.min, [range.min, range.max]⟩, pc2)
    | .inList _ => .error (QError.unsupported_op field)
    | .matchOp _ => .error (QError.unsupported_op field))

/-- `ChunkQueryBuilder`'s `ontology_column_fmt`: quote the full dotted
field. -/
def ChunkQueryBuilder.ontology_column_fmt (subfield : String) : String :=
  "'" ++ subfield ++ "'"

/-- `FilterChunksByTopicMapper::compile_clause`: only `In` is accepted and
yields `SELECT chunk_id FROM chunk_t WHERE chunk_t.topic_id IN (...)`. -/
def FilterChunksByTopicMapper.compile_clause
    (pc : Nat) (_field : String) (op : Op Int) :
    Option (Except QError (CompiledClause × Nat)) :=
  some (match op with
    | .inList items =>
      if items.isEmpty then .ok (CompiledClause.emptyClause, pc)
      else
        let vals := items.map intToValue
        let (phs, pc') := vals.foldl
          (fun (acc : List String × Nat) _ =>
            let (p, n) := consumePlaceholder acc.2
            (acc.1 ++ [p], n)) ([], pc)
        .ok (⟨"SELECT chunk_id FROM chunk_t WHERE chunk_t.topic_id IN (" ++
              String.intercalate ", " phs ++ ")", vals⟩, pc')
    | _ => .error (QError.unsupported_op "only topic filter with in clause supported"))

/-- `ChunkQueryBuilder::build`: the optional topic-restriction clause, one
clause per ontology entry, `INTERSECT`-joined and wrapped by `build_query`. -/
def ChunkQueryBuilder.build (filter : OntologyFilter) (onTopicIds : List Int) :
    Option (Except QError (String × List Value)) := do
  let st0 : ClausesCompiler × Nat := (ClausesCompiler.new, 1)
  let st1 ←
    if onTopicIds.isEmpty then pure st0
    else (ClausesCompiler.expr FilterChunksByTopicMapper.compile_clause st0 ""
      (Op.inList onTopicIds))
  let st2 ← ClausesCompiler.filterFold ChunkQueryBuilder.ontology_column_fmt
    ChunkQueryBuilder.compile_clause st1 filter
  match st2.1.compile with
  | .error e => pure (.error e)
  | .ok qr =>
    let joined := String.intercalate " INTERSECT " qr.clauses
    pure (.ok (build_query joined, qr.values))

/-! ## Semantics of the emitted chunk-stats constraints

Each `$eq`/order/`$between` clause above compares the per-chunk stats row
(`min_value`, `max_value`) against the bound constant.  `StatsCmp` names the
atomic comparisons the builder can emit and `StatsCmp.holds` is their SQL
meaning on a numeric stats row; the `...PruneCmps` lists record, per
operator, exactly the comparisons appearing in the emitted clause text. -/

inductive StatsCmp
  | minGeV
  | minLeV
  | minLtV
  | maxGeV
  | maxGtV
  | maxLeV
  deriving DecidableEq, Repr

/-- SQL meaning of one emitted comparison on a stats row `[mn, mx]` against
the bound constant `v`. -/
def StatsCmp.holds (c : StatsCmp) (mn mx v : ℚ) : Bool :=
  match c with
  | .minGeV => decide (mn ≥ v)
  | .minLeV => decide (mn ≤ v)
  | .minLtV => decide (mn < v)
  | .maxGeV => decide (mx ≥ v)
  | .maxGtV => decide (mx > v)
  | .maxLeV => decide (mx ≤ v)

/-- The `$eq v` clause text is
`__stats__.min_value >= $p AND __stats__.max_value <= $p`. -/
def eqPruneCmps : List StatsCmp := [.minGeV, .maxLeV]

/-- `$leq v` emits `__stats__.min_value <= $p`. -/
def leqPruneCmps : List StatsCmp := [.minLeV]

/-- `$geq v` emits `__stats__.max_value >= $p`. -/
def geqPruneCmps : List StatsCmp := [.maxGeV]

/-- `$lt v` emits `__stats__.min_value < $p`. -/
def ltPruneCmps : List StatsCmp := [.minLtV]

/-- `$gt v` emits `__stats__.max_value > $p`. -/
def gtPruneCmps : List StatsCmp := [.maxGtV]

/-- A chunk survives one pruning clause iff its stats row satisfies every
emitted comparison (the clause is a conjunction). -/
def chunkIsCandidate (cmps : List StatsCmp) (mn mx v : ℚ) : Bool :=
  cmps.all (fun c => c.holds mn mx v)

/-! ## Filters (`query/filter.rs`) and the topic SQL query
(`pg_queries/topic_record.rs`) -/

structure SequenceFilter where
  name : Option (Op String)
  creation : Option (Op Timestamp)
  user_metadata : Option OntologyFilter

structure TopicFilter where
  name : Option (Op String)
  creation : Option (Op Timestamp)
  ontology_tag : Option (Op String)
  serialization_format : Option (Op String)
  user_metadata : Option OntologyFilter

/-- `SequenceFilter::is_empty`. -/
def SequenceFilter.is_empty (f : SequenceFilter) : Bool :=
  f.name.isNone && f.creation.isNone && f.user_metadata.isNone

/-- `TopicFilter::is_empty`. -/
def TopicFilter.is_empty (f : TopicFilter) : Bool :=
  f.name.isNone && f.creation.isNone && f.user_metadata.isNone &&
    f.ontology_tag.isNone && f.serialization_format.isNone

/-- `query::Filter`: the three optional groups. -/
structure Filter where
  sequence : Option SequenceFilter
  topic : Option TopicFilter
  ontology : Option OntologyFilter

/-- `rw::Format` (serialization-format tag). -/
inductive Format
  | default
  | ragged
  | image
  deriving DecidableEq, Repr

/-- A `topic_t` row (`sql_models::TopicRecord`), restricted to the columns
the planner reads.  `serializationFormat` carries the already-parsed format
(the Rust record stores the string and the planner `unwrap`s the parse). -/
structure TopicRec where
  topicId : Int
  sequenceId : Int
  topicName : String
  locked : Bool
  serializationFormat : Format
  deriving DecidableEq, Repr

/-- A `sequence_t` row, restricted to the columns the planner reads. -/
structure SeqRec where
  sequenceId : Int
  sequenceName : String
  locked : Bool
  deriving DecidableEq, Repr

/-- A `chunk_t` row. -/
structure ChunkRec where
  chunkId : Int
  topicId : Int
  dataFile : String
  deriving DecidableEq, Repr

/-- Repository-level error (`repo::Error`): either a database/driver error
or a wrapped query-compilation error. -/
inductive RErr
  | db (msg : String)
  | query (e : QError)
  deriving DecidableEq, Repr

/-- The external collaborators of the planner: the SQL driver executing the
built query strings, the record fetchers, and the columnar engine's
read-filter-count pipeline.  The planner is proved against every oracle, so
nothing is assumed about the database's contents. -/
structure RepoOracle where
  runTopicQuery : String → List Value → Except RErr (List TopicRec)
  runChunkQuery : String → List Value → Except RErr (List ChunkRec)
  topicFindByIds : List Int → Except RErr (List TopicRec)
  sequenceFindById : Int → Except RErr SeqRec
  countMatching : ChunkRec → Format → OntologyFilter → Except RErr Nat

/-- The `SELECT ... FROM topic_t INNER JOIN sequence_t` head of
`topic_from_query_filter`. -/
def topicSelectHead : String :=
  "\n        SELECT topic.*\n        FROM topic_t topic\n        INNER JOIN sequence_t sequence \n        ON topic.sequence_id = sequence.sequence_id\n    "

/-- One optional `expr` step of `topic_from_query_filter` through the
`SqlQueryCompiler` (state: compiler accumulator × sql placeholder counter). -/
def sqlExprStep {V : Type} [IsSupportedOp V] (toValue : V → Value) (field : String)
    (opt : Option (Op V)) (st : ClausesCompiler × Nat) :
    Option (ClausesCompiler × Nat) :=
  match opt with
  | none => some st
  | some op => ClausesCompiler.expr (SqlQueryCompiler.compile_clause toValue) st field op

/-- One optional `filter` step through the `JsonQueryCompiler`: the json
compiler's counter is (re)set to the sql compiler's current placeholder and
its advance is private to it (the sql counter is left untouched, as in the
source, where the two compilers own separate counters). -/
def jsonFilterStep (field : String) (opt : Option OntologyFilter)
    (st : ClausesCompiler × Nat) : Option (ClausesCompiler × Nat) :=
  match opt with
  | none => some st
  | some mdata =>
    match ClausesCompiler.filterFold (JsonQueryCompiler.ontology_column_fmt field)
        (fun pc f op => JsonQueryCompiler.compile_clause pc f op) (st.1, st.2) mdata with
    | none => none
    | some (cc', _) => some (cc', st.2)

/-- `topic_from_query_filter` (`pg_queries/topic_record.rs`): early empty
result when both filters are absent, clause accumulation over both groups,
early empty result when no clause accumulated, otherwise execution of the
joined `WHERE` query.  The outer `none` models a Rust panic inside clause
compilation (empty `$in`). -/
def topic_from_query_filter (o : RepoOracle)
    (filterSeq : Option SequenceFilter) (filterTop : Option TopicFilter) :
    Option (Except RErr (List TopicRec)) := do
  if filterSeq.isNone && filterTop.isNone then
    pure (.ok [])
  else
    let st0 : ClausesCompiler × Nat := (ClausesCompiler.new, 1)
    let st1 ←
      match filterSeq with
      | none => some st0
      | some seq => do
        let a ← sqlExprStep textToValue "sequence.sequence_name" seq.name st0
        let b ← sqlExprStep timestampToValue "sequence.creation_unix_tstamp" seq.creation a
        jsonFilterStep "sequence.user_metadata" seq.user_metadata b
    let st2 ←
      match filterTop with
      | none => some st1
      | some top => do
        let a ← sqlExprStep textToValue "topic.topic_name" top.name st1
        let b ← sqlExprStep timestampToValue "topic.creation_unix_tstamp" top.creation a
        let c ← sqlExprStep textToValue "topic.ontology_tag" top.ontology_tag b
        let d ← sqlExprStep textToValue "topic.serialization_format" top.serialization_format c
        jsonFilterStep "topic.user_metadata" top.user_metadata d
    match st2.1.compile with
    | .error e => pure (.error (.query e))
    | .ok qr =>
      if qr.is_unfiltered then pure (.ok [])
      else
        let query := topicSelectHead ++ " WHERE " ++ String.intercalate " AND " qr.clauses
        pure (o.runTopicQuery query qr.values)

/-- `chunks_from_filters` (`pg_queries/data_catalog.rs`): topic ids from the
(always-supplied) topic list, the built chunk query, then execution. -/
def chunks_from_filters (o : RepoOracle) (filter : OntologyFilter)
    (onTopics : List TopicRec) : Option (Except RErr (List ChunkRec)) := do
  let ids : List Int := onTopics.map (·.topicId)
  match ← ChunkQueryBuilder.build filter ids with
  | .error e => pure (.error (.query e))
  | .ok (query, values) => pure (o.runChunkQuery query values)

/-- `sequences_group_from_topics` (`pg_queries/group.rs`): group the topic
names under their sequence's name, fetching each sequence row once.  The
Rust `HashMap` values come out in unspecified order; the model keeps first
insertion order. -/
def sequences_group_from_topics (o : RepoOracle) (topics : List TopicRec) :
    Except RErr (List (Int × String × List String)) :=
  topics.foldlM
    (fun acc topic =>
      match acc.find? (fun g => g.1 == topic.sequenceId) with
      | some _ =>
        .ok (acc.map (fun g =>
          if g.1 == topic.sequenceId then (g.1, g.2.1, g.2.2 ++ [topic.topicName]) else g))
      | none => do
        let seq ← o.sequenceFindById topic.sequenceId
        .ok (acc ++ [(seq.sequenceId, seq.sequenceName, [topic.topicName])]))
    []

/-- Insert into the `HashSet<i32>` of matched topic ids. -/
def insertTopicId (s : List Int) (i : Int) : List Int :=
  if s.contains i then s else s ++ [i]

/-- One iteration of the chunk-verification loop in the `Query` action arm
(`server/endpoints/do_action.rs`): resolve the chunk's topic (adopting it
on-the-fly when no topic filter was applied — note the source takes
`topics.last()` after the append), then count the rows matching the
residual predicate and record the topic id when at least one row matches. -/
def processChunk (o : RepoOracle) (dc : OntologyFilter) (noTopicFilter : Bool)
    (st : List TopicRec × List Int) (chunk : ChunkRec) :
    Except RErr (List TopicRec × List Int) := do
  let (topics, filtered) := st
  let (topics, topicOpt) ←
    if noTopicFilter then do
      let fetched ← o.topicFindByIds [chunk.topicId]
      let topics' := topics ++ fetched
      pure (topics', topics'.getLast?)
    else
      pure (topics, topics.find? (fun t => t.topicId == chunk.topicId))
  match topicOpt with
  | none => pure (topics, filtered)
  | some topic => do
    let count ← o.countMatching chunk topic.serializationFormat dc
    if count ≠ 0 then pure (topics, insertTopicId filtered topic.topicId)
    else pure (topics, filtered)

/-- The `ActionRequest::Query` arm of `do_action`: topic filtering, the
optional ontology (chunk-pruning plus row-verification) pass, and the final
grouping.  The outer `none` models a Rust panic during clause compilation. -/
def queryArm (f : Filter) (o : RepoOracle) :
    Option (Except RErr (List (Int × String × List String))) := do
  let noTopicFilter :=
    (match f.sequence with | none => true | some s => s.is_empty) &&
    (match f.topic with | none => true | some t => t.is_empty)
  match ← topic_from_query_filter o f.sequence f.topic with
  | .error e => pure (.error e)
  | .ok topics =>
    match f.ontology with
    | none => pure (sequences_group_from_topics o topics)
    | some dc =>
      match ← chunks_from_filters o dc topics with
      | .error e => pure (.error e)
      | .ok chunks =>
        match chunks.foldlM (processChunk o dc noTopicFilter) (topics, []) with
        | .error e => pure (.error e)
        | .ok (topics, filtered) =>
          let topics := topics.filter (fun t => filtered.contains t.topicId)
          pure (sequences_group_from_topics o topics)

/-! ## Arrow schema validation (`arrow.rs`) and the do-put pipeline
(`server/endpoints/do_put.rs`) -/

/-- Arrow data types (the subset relevant to schema validation). -/
inductive DataType
  | int64
  | int32
  | float64
  | utf8
  | boolean
  deriving DecidableEq, Repr

/-- `arrow::SchemaError`. -/
inductive SchemaError
  | missingTimestampInSchema
  | wrongTimestampType
  deriving DecidableEq, Repr

/-- Modelled from the spec: the constant
`params::ARROW_SCHEMA_COLUMN_NAME_TIMESTAMP` lives in the `params` module,
which is not among the repository's staged sources; the spec fixes the
required column name as `timestamp`. -/
def ARROW_SCHEMA_COLUMN_NAME_TIMESTAMP : String := "timestamp"

/-- A schema is its field list; `Schema::field_with_name` resolves a name to
the first field carrying it (arrow-rs `Fields::find`). -/
def field_with_name (schema : List (String × DataType)) (name : String) :
    Option (String × DataType) :=
  schema.find? (fun f => f.1 == name)

/-- `check_schema` from `arrow.rs`: the timestamp field must exist (else
`MissingTimestampInSchema`) and must be `Int64` (else
`WrongTimestampType`). -/
def check_schema (schema : List (String × DataType)) : Except SchemaError Unit :=
  match field_with_name schema ARROW_SCHEMA_COLUMN_NAME_TIMESTAMP with
  | some field => if field.2 ≠ DataType.int64 then .error .wrongTimestampType else .ok ()
  | none => .error .missingTimestampInSchema

/-- `ServerError` (subset reachable from `do_put_topic_data`). -/
inductive ServerError
  | schemaErr (e : SchemaError)
  | badKey
  | duplicateSchemaInPayload
  | noData
  deriving DecidableEq, Repr

/-- One decoded payload frame after the header (`DecodedPayload`). -/
inductive PayloadKind
  | recordBatch
  | schemaPayload
  | nonePayload
  deriving DecidableEq, Repr

/-- Zero-padded chunk index, Rust `format!("data-{:05}", chunk_number)`. -/
def padFive (n : Nat) : String :=
  let s := toString n
  String.mk (List.replicate (5 - s.length) '0') ++ s

/-- `Resource::datafile`: `name/data-NNNNN.parquet` (all formats use the
`.parquet` extension). -/
def datafilePath (name : String) (chunkNumber : Nat) : String :=
  name ++ "/data-" ++ padFive chunkNumber ++ ".parquet"

/-- The topic row as seen by the do-put endpoint: its uuid (the upload
key), its lock flag and its name. -/
structure PutTopicRow where
  uuid : Nat
  locked : Bool
  name : String
  deriving DecidableEq, Repr

/-- Result of a do-put session: the endpoint's outcome, the blob paths
written to the object store, and the topic's final lock flag. -/
structure PutResult where
  outcome : Except ServerError Unit
  blobsWritten : List String
  finalLocked : Bool
  deriving Repr

/-- The batch-consumption loop of `do_put_topic_data`: batches accumulate in
the chunked writer (no mid-stream flush); a second schema frame or an empty
frame aborts with an error before anything reaches the store.  Returns the
number of batches written or the protocol error. -/
def consumeBatches : List PayloadKind → Nat → Except ServerError Nat
  | [], n => .ok n
  | .recordBatch :: rest, n => consumeBatches rest (n + 1)
  | .schemaPayload :: _, _ => .error .duplicateSchemaInPayload
  | .nonePayload :: _, _ => .error .noData

/-- `do_put_topic_data`: schema validation, key check against the topic's
uuid, the batch loop, `ChunkedWriter::finalize` (writing `data-00000` when
at least one batch arrived — the endpoint installs the chunk-created
callback, and store/repository I/O is abstracted as succeeding), then
`FacadeTopic::lock`.  The topic's own `locked` flag is never consulted. -/
def do_put_topic_data (topic : PutTopicRow) (key : Nat)
    (schema : List (String × DataType)) (payloads : List PayloadKind) : PutResult :=
  match check_schema schema with
  | .error e => ⟨.error (.schemaErr e), [], topic.locked⟩
  | .ok _ =>
    if key ≠ topic.uuid then ⟨.error .badKey, [], topic.locked⟩
    else
      match consumeBatches payloads 0 with
      | .error e => ⟨.error e, [], topic.locked⟩
      | .ok batchCount =>
        let blobs := if batchCount = 0 then [] else [datafilePath topic.name 0]
        ⟨.ok (), blobs, true⟩

/-! ## Topic system info (`facades/facade_topic.rs`)

The `system_info` loop over the topic's data files reads
`total_size = self.store.size(file).await?` — an assignment, not an
accumulation — so the final value is the size of the last listed file
(or `0` with no files). -/

/-- The `total_size` computation of `FacadeTopic::system_info`, folded over
the listed data-file sizes exactly as the source loop runs. -/
def system_info_total_size (datafileSizes : List Nat) : Nat :=
  datafileSizes.foldl (fun _ fileSize => fileSize) 0

/-! ## Chunked writer (`rw/chunked_writer.rs`) -/

/-- The `ChunkedWriter` fields that govern `finalize`'s control flow: the
optional inner `ChunkWriter` (`writerActive`), the optional
`on_chunk_created_clbk`, and the chunk counter. -/
structure ChunkedWriterState where
  writerActive : Bool
  hasCallback : Bool
  chunkSerializedNumber : Nat
  deriving DecidableEq, Repr

/-- `ChunkedWriter::write`: instantiate the inner writer on first use and
put it back, so the writer is active afterwards. -/
def ChunkedWriter.write (s : ChunkedWriterState) : ChunkedWriterState :=
  { s with writerActive := true }

/-- `ChunkedWriter::on_chunk_created`: install the callback. -/
def ChunkedWriter.on_chunk_created (s : ChunkedWriterState) : ChunkedWriterState :=
  { s with hasCallback := true }

/-- `ChunkedWriter::finalize`: with no active writer it returns `Ok(())`
immediately; with an active writer it bumps the counter, flushes the chunk
to the store, then runs
`self.on_chunk_created_clbk.as_ref().map(...).unwrap()` — an `unwrap` of
`None` (a panic, modelled as `none`) whenever no callback was installed.
Store and callback I/O is abstracted as succeeding. -/
def ChunkedWriter.finalize (s : ChunkedWriterState) : Option ChunkedWriterState :=
  if s.writerActive then
    let s' := { s with writerActive := false,
                       chunkSerializedNumber := s.chunkSerializedNumber + 1 }
    if s.hasCallback then some s' else none
  else some s

/-! ## Resource lifecycle (`facades/facade_sequence.rs`,
`facades/facade_topic.rs`)

A small transition system over the lock-relevant repository state.  A guard
failure raises a facade error and the transaction rolls back, so a refused
operation leaves the state unchanged; the model returns the unchanged state
in that case. -/

/-- A sequence row: id and lock flag. -/
structure SeqRow where
  sid : Nat
  slocked : Bool
  deriving DecidableEq, Repr

/-- A topic row: id, parent sequence id and lock flag. -/
structure TopRow where
  tid : Nat
  seqId : Nat
  tlocked : Bool
  deriving DecidableEq, Repr

/-- The lock-relevant repository state. -/
structure LcState where
  sequences : List SeqRow
  topics : List TopRow
  deriving DecidableEq, Repr

/-- The facade operations that touch rows or locks.  `topicCreate`'s
`nameOk` stands for the `is_sub_resource` check between the sanitized
locators (a name-only guard: whichever way it goes, it only decides whether
the insert happens). -/
inductive FacadeOp
  | sequenceCreate (sid : Nat)
  | sequenceLock (sid : Nat)
  | sequenceDelete (sid : Nat)
  | topicCreate (tid : Nat) (sid : Nat) (nameOk : Bool)
  | topicLock (tid : Nat)
  | topicUpdate (tid : Nat)
  | topicDelete (tid : Nat)
  | topicDeleteUnsafe (tid : Nat)
  deriving DecidableEq, Repr

/-- One facade operation on the lock-relevant state, guards as in the
source:
`FacadeSequence::create` inserts an unlocked row (unique id; duplicate
names fail the insert); `FacadeSequence::lock` refuses when already locked
or when any child topic is unlocked; `FacadeSequence::delete` refuses when
locked, else cascades over child topics with `delete_unsafe`;
`FacadeTopic::create` refuses under a locked parent or a failed name guard
and inserts an unlocked row; `FacadeTopic::lock` sets the flag
unconditionally; `FacadeTopic::update` refuses when the topic or its parent
is locked and touches no lock column; `FacadeTopic::delete` removes the row
only while unlocked (`DELETE ... AND locked=FALSE`);
`FacadeTopic::delete_unsafe` removes it regardless. -/
def lcStep (op : FacadeOp) (s : LcState) : LcState :=
  match op with
  | .sequenceCreate sid =>
    if s.sequences.any (fun q => q.sid == sid) then s
    else { s with sequences := s.sequences ++ [⟨sid, false⟩] }
  | .sequenceLock sid =>
    match s.sequences.find? (fun q => q.sid == sid) with
    | none => s
    | some q =>
      if q.slocked then s
      else if s.topics.any (fun t => t.seqId == sid && !t.tlocked) then s
      else { s with sequences :=
        s.sequences.map (fun q => if q.sid == sid then { q with slocked := true } else q) }
  | .sequenceDelete sid =>
    match s.sequences.find? (fun q => q.sid == sid) with
    | none => s
    | some q =>
      if q.slocked then s
      else { sequences := s.sequences.filter (fun q => q.sid != sid),
             topics := s.topics.filter (fun t => t.seqId != sid) }
  | .topicCreate tid sid nameOk =>
    if s.topics.any (fun t => t.tid == tid) then s
    else
      match s.sequences.find? (fun q => q.sid == sid) with
      | none => s
      | some q =>
        if q.slocked then s
        else if !nameOk then s
        else { s with topics := s.topics ++ [⟨tid, sid, false⟩] }
  | .topicLock tid =>
    { s with topics :=
      s.topics.map (fun t => if t.tid == tid then { t with tlocked := true } else t) }
  | .topicUpdate _ => s
  | .topicDelete tid =>
    { s with topics := s.topics.filter (fun t => !(t.tid == tid && !t.tlocked)) }
  | .topicDeleteUnsafe tid =>
    { s with topics := s.topics.filter (fun t => t.tid != tid) }

/-- The ids of the sequence rows are pairwise distinct (the database's
primary-key constraint). -/
def LcState.uniqueSeqIds (s : LcState) : Prop :=
  (s.sequences.map (·.sid)).Nodup

/-- The lock invariant: every child topic of a locked sequence is locked. -/
def LcState.lockInv (s : LcState) : Prop :=
  ∀ q ∈ s.sequences, q.slocked = true →
    ∀ t ∈ s.topics, t.seqId = q.sid → t.tlocked = true

/-- A name is head-clean when, if nonempty, it neither starts with
whitespace nor with `/`; `sanitize_name` outputs that fail this condition
arise only from inputs whose trimmed form starts with `//` or `/` followed
by whitespace. -/
def cleanHead (l : List Char) : Bool :=
  match l.head? with
  | none => true
  | some c => !isWsChar c && c ≠ '/'

/-- A driver that rejects every issued SQL statement — in particular the
malformed `WITH __selected_chunks__ AS()` built for an empty ontology group,
which a real Postgres refuses with a syntax error. -/
def rejectingDriverOracle : RepoOracle where
  runTopicQuery _ _ := .error (.db "db error")
  runChunkQuery _ _ := .error (.db "syntax error in chunk query")
  topicFindByIds _ := .ok []
  sequenceFindById _ := .error (.db "db error")
  countMatching _ _ _ := .ok 0

/-- A driver that answers every chunk query with one chunk of topic 1 and
resolves that topic and its sequence — exhibiting how the planner adopts
catalog topics on-the-fly when the chunk query is answered. -/
def acceptingDriverOracle : RepoOracle where
  runTopicQuery _ _ := .ok []
  runChunkQuery _ _ := .ok [⟨1, 1, "seq1/t1/data-00000.parquet"⟩]
  topicFindByIds _ := .ok [⟨1, 1, "seq1/t1", true, .default⟩]
  sequenceFindById _ := .ok ⟨1, "seq1", true⟩
  countMatching _ _ _ := .ok 1

/-! ## Theorems -/

theorem trimRight_eq_rdropWhile (l : List Char) :
    trimRight l = List.rdropWhile isWsChar l := rfl

theorem dropWhile_head_false {p : Char → Bool} {x : Char} {L : List Char}
    (h : List.dropWhile p (x :: L) = x :: L) : p x = false := by
  by_contra hc
  rw [Bool.not_eq_false] at hc
  rw [List.dropWhile_cons_of_pos hc] at h
  have hle : (List.dropWhile p L).length ≤ L.length :=
    (List.dropWhile_suffix p).sublist.length_le
  rw [h] at hle
  simp at hle

theorem trimRight_of_trimRight_cons {c : Char} {rest : List Char}
    (ht : trimRight (c :: rest) = c :: rest) : trimRight rest = rest := by
  rcases rest with _ | ⟨d, rs⟩
  · rfl
  · have hrev : List.dropWhile isWsChar ((c :: d :: rs).reverse) = (c :: d :: rs).reverse := by
      have := congrArg List.reverse ht
      simpa [trimRight] using this
    have hrev' : List.dropWhile isWsChar ((d :: rs).reverse) = (d :: rs).reverse := by
      rcases hx : (d :: rs).reverse with _ | ⟨x, xs⟩
      · simp at hx
      · have hconcat : (c :: d :: rs).reverse = x :: (xs ++ [c]) := by
          simp [hx]
        rw [hconcat] at hrev
        have hxfalse : isWsChar x = false := dropWhile_head_false hrev
        rw [List.dropWhile_cons_of_neg (by simp [hxfalse])]
    show (List.dropWhile isWsChar (d :: rs).reverse).reverse = d :: rs
    rw [hrev']
    simp

/-- The sanitized form of a name carries no trailing whitespace: `trimRight`
fixes it. -/
theorem trimRight_sanitize_name (l : List Char) :
    trimRight (sanitize_name l) = sanitize_name l := by
  have hfix : trimRight (trimChars l) = trimChars l := by
    show List.rdropWhile isWsChar (List.rdropWhile isWsChar (trimLeft l)) =
      List.rdropWhile isWsChar (trimLeft l)
    exact List.rdropWhile_idempotent _ _
  unfold sanitize_name
  rcases hT : trimChars l with _ | ⟨c, rest⟩
  · rfl
  · rw [hT] at hfix
    unfold stripLeadingSlash
    split
    · rename_i heq
      rw [heq] at hfix
      exact trimRight_of_trimRight_cons hfix
    · exact hfix

/-- Sufficiency half of the idempotence characterization: a head-clean
sanitized output is a fixed point of `sanitize_name`. -/
theorem sanitize_idempotent_of_cleanHead (l : List Char)
    (h : cleanHead (sanitize_name l) = true) :
    sanitize_name (sanitize_name l) = sanitize_name l := by
  have htrimmedR := trimRight_sanitize_name l
  rcases hs : sanitize_name l with _ | ⟨c, rest⟩
  · rfl
  · rw [hs] at h htrimmedR
    simp only [cleanHead, List.head?_cons, Bool.and_eq_true, Bool.not_eq_true',
      decide_eq_true_eq] at h
    obtain ⟨hws, hslash⟩ := h
    have htrimL : trimLeft (c :: rest) = c :: rest :=
      List.dropWhile_cons_of_neg (by simp [hws])
    show stripLeadingSlash (trimRight (trimLeft (c :: rest))) = c :: rest
    rw [htrimL, htrimmedR]
    unfold stripLeadingSlash
    split
    · rename_i heq
      injection heq with h1 h2
      exact absurd h1 hslash
    · rfl

theorem stripLeadingSlash_length_le (l : List Char) :
    (stripLeadingSlash l).length ≤ l.length := by
  unfold stripLeadingSlash
  split
  · simp
  · exact Nat.le_refl _

theorem trimRight_length_le (l : List Char) :
    (trimRight l).length ≤ l.length := by
  show (List.dropWhile isWsChar l.reverse).reverse.length ≤ l.length
  rw [List.length_reverse]
  calc (List.dropWhile isWsChar l.reverse).length
      ≤ l.reverse.length := (List.dropWhile_suffix _).sublist.length_le
    _ = l.length := List.length_reverse l

/-- Necessity half: when the sanitized output starts with whitespace or with
`/`, a second sanitization pass strictly shortens it, so idempotence
fails. -/
theorem sanitize_not_idempotent_of_not_cleanHead (l : List Char)
    (h : cleanHead (sanitize_name l) = false) :
    sanitize_name (sanitize_name l) ≠ sanitize_name l := by
  have htrimmedR := trimRight_sanitize_name l
  rcases hs : sanitize_name l with _ | ⟨c, rest⟩
  · rw [hs] at h
    simp [cleanHead] at h
  · rw [hs] at h htrimmedR
    simp only [cleanHead, List.head?_cons, Bool.and_eq_false_iff, Bool.not_eq_false',
      decide_eq_false_iff_not, not_not] at h
    rcases h with hws | hslash
    · -- leading whitespace: the next trimLeft drops at least one character
      have hlt : (sanitize_name (c :: rest)).length < (c :: rest).length := by
        have h1 : (trimLeft (c :: rest)).length ≤ rest.length := by
          show (List.dropWhile isWsChar (c :: rest)).length ≤ rest.length
          rw [List.dropWhile_cons_of_pos hws]
          exact (List.dropWhile_suffix _).sublist.length_le
        calc (sanitize_name (c :: rest)).length
            ≤ (trimRight (trimLeft (c :: rest))).length :=
              stripLeadingSlash_length_le _
          _ ≤ (trimLeft (c :: rest)).length := trimRight_length_le _
          _ ≤ rest.length := h1
          _ < (c :: rest).length := by simp
      intro heq
      rw [heq] at hlt
      exact Nat.lt_irrefl _ hlt
    · -- leading slash: the next stripLeadingSlash removes it
      subst hslash
      have htrimL : trimLeft ('/' :: rest) = '/' :: rest :=
        List.dropWhile_cons_of_neg (by decide)
      have hval : sanitize_name ('/' :: rest) = rest := by
        show stripLeadingSlash (trimRight (trimLeft ('/' :: rest))) = rest
        rw [htrimL, htrimmedR]
        rfl
      intro heq
      rw [hval] at heq
      have := congrArg List.length heq
      simp at this

/-- C5 (amended): sanitization is idempotent exactly on the inputs whose
sanitized output is head-clean (does not start with whitespace or `/`) —
equivalently, whose trimmed form has at most one leading `/` not followed
by whitespace or another `/`.  The claim's unconditional idempotence fails,
e.g. on `"//a"`: a head-clean output is a fixed point, while an output with
a leading `/` or leading whitespace strictly shrinks under a second
pass. -/
theorem sanitize_idempotent_iff_cleanHead (l : List Char) :
    sanitize_name (sanitize_name l) = sanitize_name l ↔
      cleanHead (sanitize_name l) = true := by
  constructor
  · intro heq
    by_contra hnc
    have hfalse : cleanHead (sanitize_name l) = false := by
      cases hcc : cleanHead (sanitize_name l)
      · rfl
      · exact absurd hcc hnc
    exact sanitize_not_idempotent_of_not_cleanHead l hfalse heq
  · exact sanitize_idempotent_of_cleanHead l

/-- C1: the `$eq v` chunk-pruning clause emits
`min_value >= $p AND max_value <= $p`, so a chunk whose stats interval
strictly contains `v` — here `[0, 2]` around `v = 1` — is *not* selected,
although the spec's table (`min ≤ v ≤ max`) requires it to be a candidate;
the clause only admits chunks with `min = max = v`. -/
theorem eq_prune_drops_containing_interval :
    chunkIsCandidate eqPruneCmps 0 2 1 = false ∧
      ((0 : ℚ) < 1 ∧ (1 : ℚ) < 2) ∧
      (∀ mn mx v : ℚ, mn ≤ mx →
        (chunkIsCandidate eqPruneCmps mn mx v = true ↔ mn = v ∧ mx = v)) := by
  refine ⟨by decide, ⟨by norm_num, by norm_num⟩, ?_⟩
  intro mn mx v h
  simp only [chunkIsCandidate, eqPruneCmps, StatsCmp.holds, List.all_cons, List.all_nil,
    Bool.and_true, Bool.and_eq_true, decide_eq_true_eq, ge_iff_le]
  constructor
  · rintro ⟨hvmn, hmxv⟩
    have h1 : mn = v := le_antisymm (le_trans h hmxv) hvmn
    have h2 : mx = v := le_antisymm hmxv (le_trans hvmn h)
    exact ⟨h1, h2⟩
  · rintro ⟨h1, h2⟩
    exact ⟨le_of_eq h1.symm, le_of_eq h2⟩

/-- C2: a do-put against an already-locked topic is not refused: with a
valid schema and the matching key the endpoint consumes the batch, writes
the chunk-0 blob (over the topic's existing `data-00000.parquet`) and
re-locks; no locked check exists anywhere on the path. -/
theorem locked_topic_put_succeeds :
    (do_put_topic_data ⟨42, true, "seq1/t1"⟩ 42
        [("timestamp", DataType.int64), ("value", DataType.float64)]
        [.recordBatch]).outcome = .ok () ∧
    (do_put_topic_data ⟨42, true, "seq1/t1"⟩ 42
        [("timestamp", DataType.int64), ("value", DataType.float64)]
        [.recordBatch]).blobsWritten = ["seq1/t1/data-00000.parquet"] ∧
    (do_put_topic_data ⟨42, true, "seq1/t1"⟩ 42
        [("timestamp", DataType.int64), ("value", DataType.float64)]
        [.recordBatch]).finalLocked = true := by
  refine ⟨rfl, ?_, rfl⟩
  rfl

/-- C3: the `system_info` loop assigns instead of accumulating, so for two
data files of sizes 10 and 20 bytes it reports 20, not the sum 30 the claim
requires. -/
theorem system_info_reports_last_file_size :
    system_info_total_size [10, 20] = 20 ∧ [10, 20].sum = 30 ∧
      system_info_total_size [10, 20] ≠ [10, 20].sum := by decide

/-- C10: `ChunkedWriter::finalize` with an active inner writer and no
installed `on_chunk_created` callback hits `.map(...).unwrap()` on `None`
and panics; it completes normally exactly when a callback was installed or
no batch was ever written. -/
theorem finalize_panics_without_callback (s : ChunkedWriterState) :
    (s.writerActive = true → s.hasCallback = false →
      ChunkedWriter.finalize s = none) ∧
    (s.hasCallback = true ∨ s.writerActive = false →
      (ChunkedWriter.finalize s).isSome = true) := by
  obtain ⟨wa, hc, n⟩ := s
  cases wa <;> cases hc <;> simp [ChunkedWriter.finalize]

/-- C10 witness: a writer that received a batch and never got a callback
panics at finalize; installing the callback makes the same state finalize
normally. -/
theorem finalize_panics_without_callback_witness :
    ChunkedWriter.finalize ⟨true, false, 0⟩ = none ∧
      (ChunkedWriter.finalize ⟨true, true, 0⟩).isSome = true :=
  ⟨(finalize_panics_without_callback ⟨true, false, 0⟩).1 rfl rfl,
   (finalize_panics_without_callback ⟨true, true, 0⟩).2 (Or.inl rfl)⟩

/-- C4 counterexample: the create guard is a bare `starts_with`; a topic
named `foo-bar` under sequence `foo` and a topic named exactly like its
sequence are both accepted, where the claim demands an unauthorized
error. -/
theorem topic_create_guard_accepts_bare_prefix :
    topic_create_guard "foo-bar".toList "foo".toList false = .ok () ∧
      topic_create_guard "foo".toList "foo".toList false = .ok () := by
  constructor <;> rfl

/-- C4 (amended): with an unlocked parent, the create guard accepts a topic
iff the sanitized sequence name is a plain string prefix of the sanitized
topic name — no `/` separator or strictness is required. -/
theorem topic_create_guard_iff_prefix (t s : List Char) :
    topic_create_guard t s false = .ok () ↔
      (sanitize_name s).isPrefixOf (sanitize_name t) = true := by
  unfold topic_create_guard is_sub_resource
  split
  · simp_all
  · split
    · rename_i hif
      simp only [Bool.not_eq_true'] at hif
      simp [hif]
    · rename_i hif
      simp only [Bool.not_eq_true', Bool.not_eq_false] at hif
      simp [hif]

/-- C5 counterexample: `sanitize_name` strips only one leading `/`, so on
`"//a"` one application yields `"/a"` while a second yields `"a"`:
sanitization is not idempotent. -/
theorem sanitize_not_idempotent_on_double_slash :
    sanitize_name (sanitize_name ('/' :: '/' :: 'a' :: [])) ≠
      sanitize_name ('/' :: '/' :: 'a' :: []) := by decide

/-- C6 counterexample: `$in` fails with `unsupported_operation` for
non-Boolean operands on the real compile paths — a `user_metadata` path with
integer or text operands (`JsonQueryCompiler`, whose guard consults
`Value::support_in`, true only for `Boolean`), and a timestamp column
(`SqlQueryCompiler` with `V = Timestamp`, which has no `support_in`) —
contradicting the support matrix's universal `$in` column. -/
theorem in_op_unsupported_counterexample :
    JsonQueryCompiler.compile_clause 1 "topic.user_metadata"
        (Op.inList [Value.integer 1, Value.integer 2]) =
      some (.error (QError.unsupported_op "topic.user_metadata")) ∧
    JsonQueryCompiler.compile_clause 1 "seqfield"
        (Op.inList [Value.text "a"]) =
      some (.error (QError.unsupported_op "seqfield")) ∧
    SqlQueryCompiler.compile_clause timestampToValue 1 "topic.creation_unix_tstamp"
        (Op.inList [Timestamp.mk 5]) =
      some (.error (QError.unsupported_op "topic.creation_unix_tstamp")) :=
  ⟨rfl, rfl, rfl⟩

/-- C6 (amended): through the JSON compiler every nonempty `$in` fails with
`unsupported_operation` (for Boolean first operands the support guard
passes but the `In` arm rejects; otherwise the guard itself rejects, since
`Value::support_in` admits only `Boolean`); through the plain SQL compiler
`$in` fails for timestamps and succeeds for text columns; and unsupported
combinations always fail with the `unsupported_operation` error, never
silently. -/
theorem in_op_support_characterization (field : String) (pc : Nat) :
    (∀ (v : Value) (rest : List Value),
        JsonQueryCompiler.compile_clause pc field (Op.inList (v :: rest)) =
          some (.error (QError.unsupported_op field))) ∧
    (∀ (t : Timestamp) (rest : List Timestamp),
        SqlQueryCompiler.compile_clause timestampToValue pc field (Op.inList (t :: rest)) =
          some (.error (QError.unsupported_op field))) ∧
    (∀ (items : List String), items ≠ [] →
        ∃ c pc', SqlQueryCompiler.compile_clause textToValue pc field (Op.inList items) =
          some (.ok (c, pc'))) ∧
    (∀ (v : Value) (rest : List Value),
        (Op.inList (v :: rest)).is_supported_op = some (support_in v) ∧
          (support_in v = true ↔ ∃ b, v = Value.boolean b)) := by
  refine ⟨?_, ?_, ?_, ?_⟩
  · intro v rest
    cases v <;> rfl
  · intro t rest
    rfl
  · intro items h
    cases items with
    | nil => exact absurd rfl h
    | cons v rest => exact ⟨_, _, rfl⟩
  · intro v rest
    refine ⟨rfl, ?_⟩
    cases v <;> simp [support_in, IsSupportedOp.support_in, instSupportedValue]

/-- C6 witness: `$in` on a text column compiles, and the characterization
applied at a concrete nonempty operand list. -/
theorem in_op_support_witness :
    ∃ c pc', SqlQueryCompiler.compile_clause textToValue 1 "topic.topic_name"
        (Op.inList ["alpha"]) = some (.ok (c, pc')) :=
  (in_op_support_characterization "topic.topic_name" 1).2.2.1 ["alpha"] (by simp)

/-- C7 counterexample: with the spec-modelled column name `timestamp`,
`check_schema` resolves the *first* field with that name — a schema that
contains a valid int64 `timestamp` after a utf8 one is rejected with the
wrong-type error, although it does contain a field named exactly
`timestamp` of type int64. -/
theorem check_schema_first_match_counterexample :
    check_schema [("timestamp", DataType.utf8), ("timestamp", DataType.int64)] =
        .error .wrongTimestampType ∧
      ([("timestamp", DataType.utf8), ("timestamp", DataType.int64)].any
        (fun f => decide (f.1 = "timestamp" ∧ f.2 = DataType.int64))) = true :=
  ⟨rfl, by decide⟩

/-- C7 (amended): schema validation succeeds iff the *first* field named
exactly `timestamp` (case-sensitive — `TimeStAmP` is rejected as missing)
exists and has type int64; a missing field yields the missing-timestamp
error, a first-found field of any other type yields the wrong-type error,
and on either failure the do-put endpoint writes no blob. -/
theorem check_schema_characterization (schema : List (String × DataType)) :
    (check_schema schema = .ok () ↔
      (∃ nm dt, field_with_name schema ARROW_SCHEMA_COLUMN_NAME_TIMESTAMP = some (nm, dt) ∧
        dt = DataType.int64)) ∧
    (field_with_name schema ARROW_SCHEMA_COLUMN_NAME_TIMESTAMP = none →
      check_schema schema = .error .missingTimestampInSchema) ∧
    (∀ nm dt, field_with_name schema ARROW_SCHEMA_COLUMN_NAME_TIMESTAMP = some (nm, dt) →
      dt ≠ DataType.int64 → check_schema schema = .error .wrongTimestampType) ∧
    (∀ e, check_schema schema = .error e →
      ∀ topic key payloads, (do_put_topic_data topic key schema payloads).blobsWritten = []) ∧
    check_schema [("TimeStAmP", DataType.int64)] = .error .missingTimestampInSchema := by
  refine ⟨?_, ?_, ?_, ?_, rfl⟩
  · unfold check_schema
    rcases hf : field_with_name schema ARROW_SCHEMA_COLUMN_NAME_TIMESTAMP with _ | ⟨nm, dt⟩
    · simp
    · by_cases hdt : dt = DataType.int64
      · subst hdt
        simp
      · simp [hdt]
  · intro hf
    unfold check_schema
    rw [hf]
  · intro nm dt hf hdt
    unfold check_schema
    rw [hf]
    simp [hdt]
  · intro e he topic key payloads
    unfold do_put_topic_data
    rw [he]

/-- C7 witness: the characterization applied to a schema missing the
timestamp field: validation fails and the do-put session writes nothing. -/
theorem check_schema_characterization_witness :
    check_schema [("id", DataType.int64)] = .error .missingTimestampInSchema ∧
      (do_put_topic_data ⟨7, false, "seq1/t1"⟩ 7 [("id", DataType.int64)]
        [.recordBatch]).blobsWritten = [] := by
  have h := check_schema_characterization [("id", DataType.int64)]
  exact ⟨h.2.1 rfl, h.2.2.2.1 _ (h.2.1 rfl) ⟨7, false, "seq1/t1"⟩ 7 [.recordBatch]⟩

/-- C8 counterexample: with sequence and topic groups absent and an
ontology group that is *present but empty*, the planner does not return the
empty result set: it builds the clause-less (malformed)
`WITH __selected_chunks__ AS()` chunk query and hands it to the database —
under the rejecting driver the action fails with the driver's error, and
under an answering driver it even returns a non-empty result. -/
theorem empty_ontology_group_not_empty_result :
    ChunkQueryBuilder.build ([] : OntologyFilter) ([] : List Int) =
      some (.ok ("WITH __selected_chunks__ AS() SELECT chunk_t.* FROM chunk_t JOIN __selected_chunks__ USING (chunk_id)",
        [])) ∧
    queryArm ⟨none, none, some []⟩ rejectingDriverOracle =
      some (.error (.db "syntax error in chunk query")) ∧
    queryArm ⟨none, none, some []⟩ acceptingDriverOracle =
      some (.ok [(1, "seq1", ["seq1/t1"])]) :=
  ⟨rfl, rfl, rfl⟩

/-- C8 (amended): for every query whose sequence and topic groups are
absent or empty and whose ontology group is *absent*, the planner returns
the empty result set for every database oracle, without consulting it; an
ontology group that is present but empty instead sends the malformed
clause-less chunk query to the database. -/
theorem no_filter_no_ontology_returns_empty (o : RepoOracle)
    (fS : Option SequenceFilter) (fT : Option TopicFilter)
    (hS : (fS.map SequenceFilter.is_empty).getD true = true)
    (hT : (fT.map TopicFilter.is_empty).getD true = true) :
    queryArm ⟨fS, fT, none⟩ o = some (.ok []) := by
  rcases fS with _ | ⟨sn, sc, sm⟩ <;> rcases fT with _ | ⟨tn, tc, tt, tf, tm⟩
  · rfl
  · simp only [Option.map_some', Option.getD_some, TopicFilter.is_empty, Bool.and_eq_true,
      Option.isNone_iff_eq_none] at hT
    obtain ⟨⟨⟨⟨h1, h2⟩, h3⟩, h4⟩, h5⟩ := hT
    subst h1 h2 h3 h4 h5
    rfl
  · simp only [Option.map_some', Option.getD_some, SequenceFilter.is_empty, Bool.and_eq_true,
      Option.isNone_iff_eq_none] at hS
    obtain ⟨⟨h1, h2⟩, h3⟩ := hS
    subst h1 h2 h3
    rfl
  · simp only [Option.map_some', Option.getD_some, SequenceFilter.is_empty,
      TopicFilter.is_empty, Bool.and_eq_true, Option.isNone_iff_eq_none] at hS hT
    obtain ⟨⟨h1, h2⟩, h3⟩ := hS
    obtain ⟨⟨⟨⟨h4, h5⟩, h6⟩, h7⟩, h8⟩ := hT
    subst h1 h2 h3 h4 h5 h6 h7 h8
    rfl

/-- C8 witness: the amended law applied to a query carrying present but
clause-free sequence and topic groups and no ontology group, against the
rejecting driver: the result is the empty set, untouched by the driver's
errors. -/
theorem no_filter_no_ontology_witness :
    queryArm ⟨some ⟨none, none, none⟩, some ⟨none, none, none, none, none⟩, none⟩
      rejectingDriverOracle = some (.ok []) :=
  no_filter_no_ontology_returns_empty rejectingDriverOracle
    (some ⟨none, none, none⟩) (some ⟨none, none, none, none, none⟩) rfl rfl

/-- C9: every facade operation preserves the lock invariant — whenever a
sequence is locked, all its child topics are locked.  Sequence lock refuses
while a child topic is unlocked, topic create refuses under a locked parent
(the parent resolved by its unique id), and no operation clears a topic's
lock flag.  The sequence-id uniqueness hypothesis is the database's
primary-key constraint. -/
theorem facade_ops_preserve_lock_invariant (op : FacadeOp) (s : LcState)
    (hu : s.uniqueSeqIds) (hinv : s.lockInv) : (lcStep op s).lockInv := by
  cases op with
  | sequenceCreate sid =>
    simp only [lcStep]
    split
    · exact hinv
    · intro q hq hql t ht hseq
      rcases List.mem_append.mp hq with hq | hq
      · exact hinv q hq hql t ht hseq
      · simp only [List.mem_singleton] at hq
        subst hq
        simp at hql
  | sequenceLock sid =>
    simp only [lcStep]
    split
    · exact hinv
    · rename_i q₀ hfind
      split
      · exact hinv
      · split
        · exact hinv
        · rename_i hq₀lk hany
          intro q hq hql t ht hseq
          rw [List.mem_map] at hq
          obtain ⟨q₁, hq₁, hfq⟩ := hq
          by_cases hid : q₁.sid = sid
          · have hqsid : q.sid = sid := by
              rw [← hfq]
              simp [hid]
            have hnot : ∀ t' ∈ s.topics, ¬(t'.seqId == sid && !t'.tlocked) = true := by
              intro t' ht' hbad
              exact hany (List.any_eq_true.mpr ⟨t', ht', hbad⟩)
            have hthis := hnot t ht
            rw [hqsid] at hseq
            simp [hseq] at hthis
            exact hthis
          · have hq' : q = q₁ := by
              rw [← hfq]
              simp [hid]
            rw [hq'] at hql
            exact hinv q₁ hq₁ hql t ht (by rw [hq'] at hseq; exact hseq)
  | sequenceDelete sid =>
    simp only [lcStep]
    split
    · exact hinv
    · rename_i q₀ hfind
      split
      · exact hinv
      · intro q hq hql t ht hseq
        exact hinv q (List.mem_of_mem_filter hq) hql t (List.mem_of_mem_filter ht) hseq
  | topicCreate tid sid nameOk =>
    simp only [lcStep]
    split
    · exact hinv
    · split
      · exact hinv
      · rename_i q₀ hfind
        split
        · exact hinv
        · split
          · exact hinv
          · rename_i hq₀lk hname
            intro q hq hql t ht hseq
            rcases List.mem_append.mp ht with ht | ht
            · exact hinv q hq hql t ht hseq
            · simp only [List.mem_singleton] at ht
              subst ht
              simp only at hseq
              have hq₀mem : q₀ ∈ s.sequences := List.mem_of_find?_eq_some hfind
              have hq₀sid : q₀.sid = sid := by
                have := List.find?_some hfind
                simpa using this
              have hqq₀ : q = q₀ :=
                List.inj_on_of_nodup_map hu hq hq₀mem (by rw [← hseq, hq₀sid])
              rw [hqq₀] at hql
              simp [hql] at hq₀lk
  | topicLock tid =>
    simp only [lcStep]
    intro q hq hql t ht hseq
    rw [List.mem_map] at ht
    obtain ⟨t₁, ht₁, hft⟩ := ht
    by_cases htid : t₁.tid = tid
    · rw [← hft]
      simp [htid]
    · have ht' : t = t₁ := by
        rw [← hft]
        simp [htid]
      rw [ht'] at hseq ⊢
      exact hinv q hq hql t₁ ht₁ hseq
  | topicUpdate tid =>
    exact hinv
  | topicDelete tid =>
    simp only [lcStep]
    intro q hq hql t ht hseq
    exact hinv q hq hql t (List.mem_of_mem_filter ht) hseq
  | topicDeleteUnsafe tid =>
    simp only [lcStep]
    intro q hq hql t ht hseq
    exact hinv q hq hql t (List.mem_of_mem_filter ht) hseq

/-- C9 witness: locking a sequence whose only child topic is locked, from a
well-formed unlocked state, keeps the invariant. -/
theorem facade_ops_preserve_lock_invariant_witness :
    LcState.lockInv (lcStep (.sequenceLock 1) ⟨[⟨1, false⟩], [⟨2, 1, true⟩]⟩) :=
  facade_ops_preserve_lock_invariant (.sequenceLock 1) ⟨[⟨1, false⟩], [⟨2, 1, true⟩]⟩
    (by simp [LcState.uniqueSeqIds])
    (by
      intro q hq hql t ht hseq
      simp only [List.mem_singleton] at hq ht
      subst hq
      simp at hql)

end Mosaico
